import Mathlib

/-!
Verification of the invoicing core of the FaturaYoneticim repository
(`server/storage.ts`, `server/routes.ts`, `shared/schema.ts`,
`client/src/pages/reports.tsx`).

Modelling conventions, shared by every definition below:

* Decimal amount strings (`decimal(10,2)` columns parsed with JS
  `parseFloat` and re-serialised with `toString`) are modelled as exact
  rationals `ℚ`.  IEEE-754 rounding of JS number arithmetic is not
  modelled.
* Timestamps (`Date` values) are modelled as `Int` milliseconds since
  the Unix epoch, exactly the value of JS `Date.prototype.getTime`.
* `randomUUID()` is modelled by passing the freshly generated id as an
  explicit argument.
* JS `Map` objects (keyed by the `id` field, which is always a fresh
  UUID) are modelled as lists in insertion order; `Map.set` on an
  existing key is modelled by replacing every list entry carrying that
  id (extensionally equal to the map behaviour, ids being unique).
* A thrown JS exception is modelled as `Except.error`; an `Except.error`
  result carries no state, which models the fact that the throw happens
  before any mutation of the store in the corresponding source path.
* JS `parseInt(s, 10)` is modelled as parsing the longest leading run
  of decimal digits (`none` when there is no leading digit, i.e. `NaN`).
  The whitespace/sign trimming of `parseInt` is not modelled; the
  strings it is applied to here are dash-free invoice-number suffixes.
-/

namespace Fatura

/-! ### Decimal rendering and parsing of numbers (JS `toString` / `parseInt`) -/

/-- The decimal digit character for `d` (`d ≤ 9` in every use). -/
def digitChar (d : Nat) : Char :=
  match d with
  | 0 => '0' | 1 => '1' | 2 => '2' | 3 => '3' | 4 => '4'
  | 5 => '5' | 6 => '6' | 7 => '7' | 8 => '8' | _ => '9'

/-- Decimal digit characters of `n`, most significant first
(JS `Number.prototype.toString` for a natural number). -/
def natChars (n : Nat) : List Char :=
  if _h : n < 10 then [digitChar n]
  else natChars (n / 10) ++ [digitChar (n % 10)]
decreasing_by exact Nat.div_lt_self (by omega) (by omega)

/-- Decimal rendering of a natural number as a string. -/
def natRepr (n : Nat) : String := ⟨natChars n⟩

/-- Numeric value of a list of decimal digit characters. -/
def charsVal (cs : List Char) : Nat :=
  cs.foldl (fun acc c => acc * 10 + (c.toNat - 48)) 0

/-- JS `parseInt(s, 10)` on the strings in scope: value of the longest
leading run of decimal digits, `none` (`NaN`) when there is none. -/
def parseNatLeading (s : String) : Option Nat :=
  let ds := s.data.takeWhile (fun c => c.isDigit)
  if ds.isEmpty then none else some (charsVal ds)

/-- JS `String.prototype.padStart(3, '0')`. -/
def padStart3 (s : String) : String :=
  ⟨List.replicate (3 - s.data.length) '0' ++ s.data⟩

/-- JS `String.prototype.startsWith`. -/
def strStartsWith (s p : String) : Bool :=
  p.data.isPrefixOf s.data

/-- Drop the first `n` characters of a string. -/
def strDrop (s : String) (n : Nat) : String := ⟨s.data.drop n⟩

/-- JS `String.prototype.split('-')` on the character list. -/
def splitDashChars : List Char → List (List Char)
  | [] => [[]]
  | c :: cs =>
    if c = '-' then [] :: splitDashChars cs
    else
      match splitDashChars cs with
      | [] => [[c]]
      | h :: t => (c :: h) :: t

/-- JS `String.prototype.split('-')`. -/
def splitDash (s : String) : List String :=
  (splitDashChars s.data).map (fun l => ⟨l⟩)

/-- JS `Math.max(...l)` for a non-empty list of naturals (the only use). -/
def listMax (l : List Nat) : Nat := l.foldr max 0

/-- JS `Array.prototype.reduce((sum, x) => sum + f(x), 0)`. -/
def sumBy {α : Type} (f : α → ℚ) (l : List α) : ℚ :=
  l.foldl (fun acc x => acc + f x) 0

/-! ### Data model (`shared/schema.ts`) -/

/-- `invoices.status ∈ {"unpaid", "partial", "paid"}`. -/
inductive Status where
  | unpaid
  | partial'
  | paid
deriving DecidableEq, Repr

/-- A row of the `invoices` table. -/
structure Invoice where
  id : String
  userId : String
  number : String
  customerId : Option String
  amount : ℚ
  paidAmount : ℚ
  status : Status
  description : Option String
  issueDate : Int
  dueDate : Option Int
  createdAt : Int
deriving DecidableEq, Repr

/-- A row of the `payments` table. -/
structure Payment where
  id : String
  invoiceId : String
  amount : ℚ
  date : Int
  createdAt : Int
deriving DecidableEq, Repr

/-- A row of the `expenses` table (the fields the analytics read). -/
structure Expense where
  id : String
  userId : String
  category : String
  amount : ℚ
  description : Option String
  date : Int
  createdAt : Int
deriving DecidableEq, Repr

/-- A row of the `customers` table (the fields the reports read). -/
structure Customer where
  id : String
  userId : String
  name : String
  company : Option String
deriving DecidableEq, Repr

/-- `InsertInvoice` (`insertInvoiceSchema`): the caller-supplied fields of
`createInvoice`. -/
structure InsertInvoice where
  number : Option String
  customerId : Option String
  amount : ℚ
  paidAmount : Option ℚ
  status : Option Status
  description : Option String
  issueDate : Option Int
  dueDate : Option Int
deriving DecidableEq, Repr

/-- `InsertPayment` (`insertPaymentSchema`): the caller-supplied fields of
`createPayment`. -/
structure InsertPayment where
  invoiceId : String
  amount : ℚ
  date : Option Int
deriving DecidableEq, Repr

/-- The in-memory store of `MemStorage` (the maps that the claims read). -/
structure MemState where
  invoices : List Invoice
  payments : List Payment
  expenses : List Expense
deriving DecidableEq, Repr

/-- The `MemStorage` constructor: all maps empty. -/
def emptyMemState : MemState := ⟨[], [], []⟩

/-! ### Invoice numbering (`MemStorage.generateInvoiceNumber`) -/

/-- The string `` `FT-${currentYear}-` ``. -/
def yearTag (year : Nat) : String := "FT-" ++ natRepr year ++ "-"

/-- The body of the `.map` callback in `generateInvoiceNumber`:
`const numberPart = invoice.number?.split('-')[2];
 return numberPart ? parseInt(numberPart, 10) : 0;`
followed by the `.filter(num => !isNaN(num))` step (`none` = `NaN`). -/
def jsSuffixVal (number : String) : Option Nat :=
  match (splitDash number)[2]? with
  | none => some 0
  | some p => if p = "" then some 0 else parseNatLeading p

/-- `MemStorage.generateInvoiceNumber(userId)`: scan the store for this
user's invoice numbers carrying the `FT-<year>-` tag, parse their numeric
suffixes, and propose `max + 1` (or `1`), zero-padded to 3 digits.
`year` stands for `new Date().getFullYear()`. -/
def generateInvoiceNumber (userId : String) (year : Nat)
    (invoices : List Invoice) : String :=
  let tag := yearTag year
  let currentYearInvoices :=
    ((invoices.filter
        (fun inv => inv.userId == userId && strStartsWith inv.number tag)).map
      (fun inv => jsSuffixVal inv.number)).filterMap id
  let nextNumber :=
    if 0 < currentYearInvoices.length then listMax currentYearInvoices + 1 else 1
  tag ++ padStart3 (natRepr nextNumber)

/-! ### `MemStorage` operations (`server/storage.ts`) -/

/-- `MemStorage.getInvoice(id, userId)`: map lookup plus ownership check. -/
def memGetInvoice (st : MemState) (id userId : String) : Option Invoice :=
  match st.invoices.find? (fun inv => inv.id == id) with
  | none => none
  | some inv => if inv.userId == userId then some inv else none

/-- `MemStorage.createInvoice(insertInvoice, userId)`.  `id` models
`randomUUID()`, `year` models `new Date().getFullYear()` and `now` the
`new Date()` timestamps. -/
def memCreateInvoice (st : MemState) (req : InsertInvoice)
    (userId id : String) (year : Nat) (now : Int) : Invoice × MemState :=
  let invoiceNumber :=
    match req.number with
    | some n => if n = "" then generateInvoiceNumber userId year st.invoices else n
    | none => generateInvoiceNumber userId year st.invoices
  let inv : Invoice :=
    { id := id
      userId := userId
      number := invoiceNumber
      customerId := req.customerId
      amount := req.amount
      paidAmount := req.paidAmount.getD 0
      status := req.status.getD .unpaid
      description := req.description
      issueDate := req.issueDate.getD now
      dueDate := req.dueDate
      createdAt := now }
  (inv, { st with invoices := st.invoices ++ [inv] })

/-- Sort a payment list by `(a, b) => b.date - a.date` (newest first),
modelling the stable JS `Array.prototype.sort`. -/
def sortByDateDesc (ps : List Payment) : List Payment :=
  ps.mergeSort (fun a b => b.date ≤ a.date)

/-- `MemStorage.getPaymentsByInvoice(invoiceId, userId)`: `[]` unless the
invoice exists and is owned by the user. -/
def memGetPaymentsByInvoice (st : MemState) (invoiceId userId : String) :
    List Payment :=
  match memGetInvoice st invoiceId userId with
  | none => []
  | some _ => sortByDateDesc (st.payments.filter (fun p => p.invoiceId == invoiceId))

/-- `MemStorage.createPayment(insertPayment, userId)`: throws unless the
referenced invoice exists and is owned by the user; the throw precedes the
`payments.set`, so the error branch carries no state change. -/
def memCreatePayment (st : MemState) (req : InsertPayment)
    (userId id : String) (now : Int) : Except String (Payment × MemState) :=
  match st.invoices.find? (fun inv => inv.id == req.invoiceId) with
  | none => .error "Invoice not found or access denied"
  | some inv =>
    if inv.userId == userId then
      let payment : Payment :=
        { id := id
          invoiceId := req.invoiceId
          amount := req.amount
          date := req.date.getD now
          createdAt := now }
      .ok (payment, { st with payments := st.payments ++ [payment] })
    else .error "Invoice not found or access denied"

/-- The partial-update record of `updateInvoice` restricted to the fields
the payment route writes (`Partial<InsertInvoice>`). -/
structure InvoiceUpdate where
  paidAmount : Option ℚ
  status : Option Status
deriving DecidableEq, Repr

/-- `{...invoice, ...updateData}` for the fields above. -/
def applyUpdate (inv : Invoice) (u : InvoiceUpdate) : Invoice :=
  { inv with
    paidAmount := u.paidAmount.getD inv.paidAmount
    status := u.status.getD inv.status }

/-- `MemStorage.updateInvoice(id, updateData, userId)`: throws when the
invoice is missing or foreign, otherwise `Map.set`s the merged record. -/
def memUpdateInvoice (st : MemState) (id : String) (u : InvoiceUpdate)
    (userId : String) : Except String (Invoice × MemState) :=
  match st.invoices.find? (fun inv => inv.id == id) with
  | none => .error "Invoice not found"
  | some inv =>
    if inv.userId == userId then
      let updated := applyUpdate inv u
      .ok (updated,
        { st with
          invoices := st.invoices.map (fun i => if i.id == id then updated else i) })
    else .error "Invoice not found"

/-! ### Payment application (`app.post("/api/payments")` in `server/routes.ts`) -/

/-- The status derivation in the payment route:
`let status = "unpaid"; if (totalPaid >= invoiceAmount) status = "paid";
 else if (totalPaid > 0) status = "partial";` -/
def deriveStatus (totalPaid invoiceAmount : ℚ) : Status :=
  if totalPaid ≥ invoiceAmount then .paid
  else if totalPaid > 0 then .partial'
  else .unpaid

/-- The `POST /api/payments` handler over `MemStorage`:
`insertPaymentSchema.parse`, then `createPayment`, then — when
`payment.invoiceId` is truthy and the invoice is found — recompute
`paidAmount` as the sum over `getPaymentsByInvoice` and persist it together
with the derived status via `updateInvoice`.  `pid` models the payment's
`randomUUID()`.  (The `updateInvoice` error branch is unreachable here
because `createPayment` has just verified the invoice.) -/
def recordPayment (st : MemState) (userId : String) (req : InsertPayment)
    (pid : String) (now : Int) : Except String (Payment × MemState) :=
  if req.invoiceId = "" then .error "Invalid payment data"
  else if ¬ (0 < req.amount) then .error "Invalid payment data"
  else
    match memCreatePayment st req userId pid now with
    | .error e => .error e
    | .ok (payment, st1) =>
      if payment.invoiceId = "" then .ok (payment, st1)
      else
        match memGetInvoice st1 payment.invoiceId userId with
        | none => .ok (payment, st1)
        | some invoice =>
          let payments := memGetPaymentsByInvoice st1 payment.invoiceId userId
          let totalPaid := sumBy (fun p => p.amount) payments
          let status := deriveStatus totalPaid invoice.amount
          match memUpdateInvoice st1 payment.invoiceId
              { paidAmount := some totalPaid, status := some status } userId with
          | .error e => .error e
          | .ok (_, st2) => .ok (payment, st2)

/-! ### `PostgreSQLStorage` operations (`server/storage.ts`)

The drizzle queries are modelled over the same row lists: `select ... where
and(eq(id), eq(userId)) limit 1` is `filter` + `head?`.  The database itself
(network, SQL engine) is external; only the TypeScript control flow around
it is verified. -/

/-- The relational store: the `invoices` and `payments` tables. -/
structure PgState where
  invoices : List Invoice
  payments : List Payment
deriving DecidableEq, Repr

/-- `PostgreSQLStorage.getInvoice(id, userId)`. -/
def pgGetInvoice (st : PgState) (id userId : String) : Option Invoice :=
  (st.invoices.filter (fun inv => inv.id == id && inv.userId == userId)).head?

/-- `PostgreSQLStorage.getPaymentsByInvoice(invoiceId, userId)`: `[]` unless
the invoice exists and is owned by the user. -/
def pgGetPaymentsByInvoice (st : PgState) (invoiceId userId : String) :
    List Payment :=
  match pgGetInvoice st invoiceId userId with
  | none => []
  | some _ => sortByDateDesc (st.payments.filter (fun p => p.invoiceId == invoiceId))

/-- `PostgreSQLStorage.createPayment(insertPayment, userId)`: reject a
falsy `invoiceId`, then reject a missing or foreign invoice, then insert. -/
def pgCreatePayment (st : PgState) (req : InsertPayment)
    (userId id : String) (now : Int) : Except String (Payment × PgState) :=
  if req.invoiceId = "" then .error "Invoice ID is required for payment creation"
  else
    match pgGetInvoice st req.invoiceId userId with
    | none => .error "Invoice not found or access denied"
    | some _ =>
      let payment : Payment :=
        { id := id
          invoiceId := req.invoiceId
          amount := req.amount
          date := req.date.getD now
          createdAt := now }
      .ok (payment, { st with payments := st.payments ++ [payment] })

/-! ### The auto-numbering retry loop (`PostgreSQLStorage.createInvoice`)

Each loop iteration performs a read-propose-insert round trip against the
database; iteration `k` is modelled by the oracle value `attempts k`.  A
database error is a pair of the Postgres `code` and constraint `detail`;
the loop retries exactly on `code === '23505'` with
`detail.includes('user_invoice_number')`.  The
`setTimeout(..., Math.random() * 100)` backoff between retries is
real-time behaviour with no effect on the returned value and is not part
of the state model. -/

/-- A Postgres error as inspected by the catch block. -/
structure DbError where
  code : String
  detail : String
deriving DecidableEq, Repr

/-- `error?.code === '23505' && error?.detail?.includes('user_invoice_number')`. -/
def isUserInvoiceNumberViolation (e : DbError) : Bool :=
  e.code == "23505" && (e.detail.splitOn "user_invoice_number").length > 1

/-- Outcome of one read-propose-insert attempt. -/
inductive AttemptResult where
  | ok (inv : Invoice)
  | err (e : DbError)
deriving DecidableEq, Repr

/-- Result of the whole auto-numbered `createInvoice` call. -/
inductive CreateResult where
  | ok (inv : Invoice)
  | dbErr (e : DbError)
  | fatal (msg : String)
deriving DecidableEq, Repr

/-- `maxRetries = 10`. -/
def maxRetries : Nat := 10

/-- The body of `for (let attempt = 0; attempt < maxRetries; attempt++)`,
starting at iteration `attempt` with `fuel` iterations left
(`attempt + fuel = maxRetries` at every call). -/
def createInvoiceLoop (attempts : Nat → AttemptResult) :
    Nat → Nat → CreateResult
  | _, 0 => .fatal "Maximum retry attempts exceeded for invoice creation"
  | attempt, fuel + 1 =>
    match attempts attempt with
    | .ok inv => .ok inv
    | .err e =>
      if isUserInvoiceNumberViolation e then
        if attempt == maxRetries - 1 then
          .fatal "Unable to generate unique invoice number after multiple attempts"
        else createInvoiceLoop attempts (attempt + 1) fuel
      else .dbErr e

/-- `PostgreSQLStorage.createInvoice` on the auto-numbering path
(`insertInvoice.number` falsy): run the retry loop from attempt `0`. -/
def pgCreateInvoiceAuto (attempts : Nat → AttemptResult) : CreateResult :=
  createInvoiceLoop attempts 0 maxRetries

/-! ### Dashboard analytics (`app.get("/api/analytics/dashboard")`) -/

/-- Gregorian `(year, month)` from a count of days since 1970-01-01
(Howard Hinnant's `civil_from_days`, the algorithm behind
`getUTCFullYear` / `getUTCMonth`). -/
def civilYearMonth (z : Int) : Int × Int :=
  let z := z + 719468
  let era := z.fdiv 146097
  let doe := (z - era * 146097).toNat
  let yoe := (doe - doe / 1460 + doe / 36524 - doe / 146096) / 365
  let y : Int := (yoe : Int) + era * 400
  let doy := doe - (365 * yoe + yoe / 4 - yoe / 100)
  let mp := (5 * doy + 2) / 153
  let m : Int := (mp : Int) + (if mp < 10 then 3 else -9)
  (y + (if m ≤ 2 then 1 else 0), m)

/-- `getYearMonth` in `server/routes.ts`: UTC year and 1-based month of a
timestamp (`date.getUTCFullYear()` / `date.getUTCMonth() + 1`). -/
def getYearMonth (t : Int) : Int × Int :=
  civilYearMonth (t.fdiv 86400000)

/-- The `monthly` object of the dashboard response. -/
structure MonthlyStats where
  invoices : ℚ
  expenses : ℚ
  payments : ℚ
  profit : ℚ
deriving DecidableEq, Repr

/-- The `yearly` object of the dashboard response. -/
structure YearlyStats where
  invoices : ℚ
  expenses : ℚ
  profit : ℚ
deriving DecidableEq, Repr

/-- The dashboard response.  `lastUpdate` is
`new Date().toLocaleTimeString('tr-TR')`, modelled as the second of the
day the string displays. -/
structure DashboardResponse where
  monthly : MonthlyStats
  yearly : YearlyStats
  receivables : ℚ
  lastUpdate : Int
deriving DecidableEq, Repr

/-- `MemStorage.getPayments(userId)` restricted to what the analytics
consume: the user's payments through the invoice join (sorting by date
does not change any sum below and is omitted here; see
`memGetPaymentsByInvoice` for the sorted variant). -/
def memGetPayments (st : MemState) (userId : String) : List Payment :=
  st.payments.filter (fun p =>
    match st.invoices.find? (fun inv => inv.id == p.invoiceId) with
    | none => false
    | some inv => inv.userId == userId)

/-- The `GET /api/analytics/dashboard` handler: monthly and yearly sums
over the user's ledger plus all-time receivables.  `month`/`year` are the
parsed query parameters, `now` the request-time clock. -/
def dashboardAnalytics (st : MemState) (userId : String)
    (month year : Int) (now : Int) : DashboardResponse :=
  let invoices := st.invoices.filter (fun inv => inv.userId == userId)
  let expenses := st.expenses.filter (fun e => e.userId == userId)
  let payments := memGetPayments st userId
  let monthlyInvoices := invoices.filter (fun inv =>
    getYearMonth inv.issueDate = (year, month))
  let monthlyExpenses := expenses.filter (fun e =>
    getYearMonth e.date = (year, month))
  let monthlyPayments := payments.filter (fun p =>
    getYearMonth p.date = (year, month))
  let monthlyInvoiceTotal := sumBy (fun inv => inv.amount) monthlyInvoices
  let monthlyExpenseTotal := sumBy (fun e => e.amount) monthlyExpenses
  let monthlyPaymentTotal := sumBy (fun p => p.amount) monthlyPayments
  let receivables := invoices.filter (fun inv =>
    inv.status == .unpaid || inv.status == .partial')
  let totalReceivables := sumBy (fun inv => inv.amount - inv.paidAmount) receivables
  let yearlyInvoices := invoices.filter (fun inv =>
    (getYearMonth inv.issueDate).1 = year)
  let yearlyExpenses := expenses.filter (fun e => (getYearMonth e.date).1 = year)
  let yearlyInvoiceTotal := sumBy (fun inv => inv.amount) yearlyInvoices
  let yearlyExpenseTotal := sumBy (fun e => e.amount) yearlyExpenses
  { monthly :=
      { invoices := monthlyInvoiceTotal
        expenses := monthlyExpenseTotal
        payments := monthlyPaymentTotal
        profit := monthlyInvoiceTotal - monthlyExpenseTotal }
    yearly :=
      { invoices := yearlyInvoiceTotal
        expenses := yearlyExpenseTotal
        profit := yearlyInvoiceTotal - yearlyExpenseTotal }
    receivables := totalReceivables
    lastUpdate := (now.fdiv 1000) % 86400 }

/-! ### Aging report (`getAgingReport` in `client/src/pages/reports.tsx`) -/

/-- One pushed entry: the invoice spread together with the extra fields. -/
structure AgingEntry where
  inv : Invoice
  customerName : String
  customerCompany : String
  remaining : ℚ
  daysPastDue : Int
deriving DecidableEq, Repr

/-- `new Date(invoice.dueDate)` on the client: a `null` due date coerces
to the Unix epoch (`new Date(null)` is time `0`). -/
def effectiveDueDate (inv : Invoice) : Int := inv.dueDate.getD 0

/-- `Math.floor((today - dueDate) / 86400000)` in whole days. -/
def daysPastDue (today : Int) (inv : Invoice) : Int :=
  (today - effectiveDueDate inv).fdiv 86400000

/-- Build the pushed entry for an invoice. -/
def mkAgingEntry (customers : List Customer) (today : Int) (inv : Invoice) :
    AgingEntry :=
  let customer : Option Customer :=
    match inv.customerId with
    | none => none
    | some cid => customers.find? (fun c => c.id == cid)
  { inv := inv
    customerName := (customer.map (fun c => c.name)).getD "Bilinmeyen Müşteri"
    customerCompany := (customer.bind (fun c => c.company)).getD ""
    remaining := inv.amount - inv.paidAmount
    daysPastDue := daysPastDue today inv }

/-- `getAgingReport`: walk the invoices in order, skip paid ones, skip
those not past due, skip those without positive remaining balance, and
push into the 10–20-day and the 20+-day bucket. -/
def getAgingReport (customers : List Customer) (today : Int) :
    List Invoice → List AgingEntry × List AgingEntry
  | [] => ([], [])
  | inv :: rest =>
    let b := getAgingReport customers today rest
    if inv.status == .paid then b
    else
      let d := daysPastDue today inv
      if d ≤ 0 then b
      else
        let remaining := inv.amount - inv.paidAmount
        if remaining ≤ 0 then b
        else
          let entry := mkAgingEntry customers today inv
          if 10 ≤ d ∧ d ≤ 20 then (entry :: b.1, b.2)
          else if 20 < d then (b.1, entry :: b.2)
          else b

/-! ### Specification-side definitions

These follow the wording of the specification / claims and are compared
against the source-derived definitions above. -/

/-- The list of parsed suffix values inside `generateInvoiceNumber`
(`currentYearInvoices` in the source), named for the proofs. -/
def jsSeqVals (userId : String) (year : Nat) (invoices : List Invoice) :
    List Nat :=
  ((invoices.filter
      (fun inv => inv.userId == userId && strStartsWith inv.number (yearTag year))).map
    (fun inv => jsSuffixVal inv.number)).filterMap id

/-- The proposed next sequence number inside `generateInvoiceNumber`
(`nextNumber` in the source), named for the proofs. -/
def jsNextSeq (userId : String) (year : Nat) (invoices : List Invoice) : Nat :=
  if 0 < (jsSeqVals userId year invoices).length
  then listMax (jsSeqVals userId year invoices) + 1 else 1

/-- Spec wording for the numbering scan: the numeric suffixes of the
tenant's persisted numbers matching the `FT-<year>-` tag — each suffix
being the part of the number after the tag, parsed numerically. -/
def specSeqVals (userId : String) (year : Nat) (invoices : List Invoice) :
    List Nat :=
  invoices.filterMap (fun inv =>
    if inv.userId == userId && strStartsWith inv.number (yearTag year)
    then parseNatLeading (strDrop inv.number (yearTag year).length)
    else none)

/-- Spec wording: propose `max + 1`, or `1` if no suffix exists. -/
def specNextSeq (userId : String) (year : Nat) (invoices : List Invoice) :
    Nat :=
  let vals := specSeqVals userId year invoices
  if 0 < vals.length then listMax vals + 1 else 1

/-- Whether an attempt outcome is the retryable uniqueness violation. -/
def isViolationResult : AttemptResult → Bool
  | .ok _ => false
  | .err e => isUserInvoiceNumberViolation e

/-- Spec wording for the retry loop: return the outcome of the first of
the 10 attempts that is not a uniqueness violation — unchanged — and fail
with the fatal error when all 10 attempts collide. -/
def retrySpec (attempts : Nat → AttemptResult) : CreateResult :=
  match (List.range maxRetries).find? (fun k => ! isViolationResult (attempts k)) with
  | some k =>
    match attempts k with
    | .ok inv => .ok inv
    | .err e => .dbErr e
  | none => .fatal "Unable to generate unique invoice number after multiple attempts"

/-- Amended aging wording: a non-paid invoice with positive remaining
balance whose effective due date (the persisted one, or the epoch when
absent) lies 10 to 20 whole days in the past. -/
def inBucket10to20 (today : Int) (inv : Invoice) : Bool :=
  decide (¬ inv.status = .paid ∧ 0 < inv.amount - inv.paidAmount
    ∧ 10 ≤ daysPastDue today inv ∧ daysPastDue today inv ≤ 20)

/-- Amended aging wording: a non-paid invoice with positive remaining
balance whose effective due date lies more than 20 whole days in the past. -/
def inBucket20plus (today : Int) (inv : Invoice) : Bool :=
  decide (¬ inv.status = .paid ∧ 0 < inv.amount - inv.paidAmount
    ∧ 20 < daysPastDue today inv)

/-! ### Runs and states used by the concrete theorems -/

/-- The invoice numbers a tenant currently holds, in store order. -/
def numbersOf (st : MemState) (userId : String) : List String :=
  (st.invoices.filter (fun inv => inv.userId == userId)).map (fun inv => inv.number)

/-- One auto-numbered `createInvoice` call: its payload and its ambient
clock values. -/
structure AutoCreateEvent where
  req : InsertInvoice
  userId : String
  id : String
  year : Nat
  now : Int

/-- Run a sequence of `MemStorage.createInvoice` calls that all omit the
explicit number, starting from the freshly constructed store. -/
def runAutoCreates (evs : List AutoCreateEvent) : MemState :=
  evs.foldl
    (fun st ev =>
      (memCreateInvoice st { ev.req with number := none } ev.userId ev.id
        ev.year ev.now).2)
    emptyMemState

/-- An `InsertInvoice` with just an amount (and optionally an explicit
number): the other fields empty. -/
def plainInsertInvoice (number : Option String) (amount : ℚ) : InsertInvoice :=
  { number := number
    customerId := none
    amount := amount
    paidAmount := none
    status := none
    description := none
    issueDate := none
    dueDate := none }

/-- Two `createInvoice` calls with the same explicit number for the same
tenant: `MemStorage` accepts both. -/
def c2DupState : MemState :=
  let st1 := (memCreateInvoice emptyMemState
    (plainInsertInvoice (some "FT-2025-001") 100) "u1" "i1" 2025 0).2
  (memCreateInvoice st1
    (plainInsertInvoice (some "FT-2025-001") 200) "u1" "i2" 2025 0).2

/-- A store holding one invoice of amount 100 for tenant `u1`. -/
def oneInvoiceState : MemState :=
  (memCreateInvoice emptyMemState
    (plainInsertInvoice (some "FT-2025-001") 100) "u1" "i1" 2025 0).2

/-- Recording a payment of 150 against the 100-amount invoice. -/
def overpayRun : Except String (Payment × MemState) :=
  recordPayment oneInvoiceState "u1" { invoiceId := "i1", amount := 150, date := none } "p1" 0

/-- Recording a payment of 40 against the 100-amount invoice. -/
def partialPayRun : Except String (Payment × MemState) :=
  recordPayment oneInvoiceState "u1" { invoiceId := "i1", amount := 40, date := none } "p2" 0

/-- An unpaid invoice with no due date at all. -/
def noDueDateInvoice : Invoice :=
  { id := "i1"
    userId := "u1"
    number := "FT-2025-001"
    customerId := none
    amount := 100
    paidAmount := 0
    status := .unpaid
    description := none
    issueDate := 0
    dueDate := none
    createdAt := 0 }

/-- The relational store holding one invoice owned by tenant `u2`. -/
def pgForeignState : PgState :=
  { invoices := [{ noDueDateInvoice with userId := "u2" }], payments := [] }

/-- The in-memory store holding one invoice owned by tenant `u2`. -/
def memForeignState : MemState :=
  { invoices := [{ noDueDateInvoice with userId := "u2" }]
    payments := []
    expenses := [] }

/-- The payment row `createPayment` builds for a request. -/
def paymentOf (req : InsertPayment) (pid : String) (now : Int) : Payment :=
  { id := pid
    invoiceId := req.invoiceId
    amount := req.amount
    date := req.date.getD now
    createdAt := now }

/-- The paid total the payment route recomputes: the sum over every
payment row associated with the invoice after the insert. -/
def recomputedTotal (st : MemState) (req : InsertPayment) (pid : String)
    (now : Int) : ℚ :=
  sumBy (fun p => p.amount)
    (sortByDateDesc ((st.payments ++ [paymentOf req pid now]).filter
      (fun p => p.invoiceId == req.invoiceId)))

/-- The invoice record after the route's `updateInvoice` step. -/
def updatedInvoice (st : MemState) (req : InsertPayment) (pid : String)
    (now : Int) (inv : Invoice) : Invoice :=
  applyUpdate inv
    { paidAmount := some (recomputedTotal st req pid now)
      status := some (deriveStatus (recomputedTotal st req pid now) inv.amount) }

/-- The store after a successful `recordPayment` on the invoice `inv`. -/
def postPaymentState (st : MemState) (req : InsertPayment) (pid : String)
    (now : Int) (inv : Invoice) : MemState :=
  { invoices := st.invoices.map (fun i =>
      if i.id == req.invoiceId then updatedInvoice st req pid now inv else i)
    payments := st.payments ++ [paymentOf req pid now]
    expenses := st.expenses }

/-- The payment row persisted by `partialPayRun`. -/
def c5Pay : Payment := { id := "p2", invoiceId := "i1", amount := 40, date := 0, createdAt := 0 }

/-- The store after `partialPayRun`. -/
def c5State : MemState :=
  { invoices := [{ noDueDateInvoice with paidAmount := 40, status := .partial' }]
    payments := [c5Pay]
    expenses := [] }

/-- The payment row persisted by `overpayRun`. -/
def c9Pay : Payment := { id := "p1", invoiceId := "i1", amount := 150, date := 0, createdAt := 0 }

/-- The invoice record after `overpayRun`: `paidAmount` 150 exceeds
`amount` 100. -/
def c9Inv : Invoice := { noDueDateInvoice with paidAmount := 150, status := .paid }

/-- The store after `overpayRun`. -/
def c9State : MemState :=
  { invoices := [c9Inv]
    payments := [c9Pay]
    expenses := [] }

/-! ## Shared lemmas -/

theorem sumBy_cons {α : Type} (f : α → ℚ) (x : α) (l : List α) (c : ℚ) :
    List.foldl (fun acc y => acc + f y) c (x :: l)
      = List.foldl (fun acc y => acc + f y) (c + f x) l := rfl

theorem foldl_add_eq {α : Type} (f : α → ℚ) (l : List α) :
    ∀ c : ℚ, List.foldl (fun acc y => acc + f y) c l = c + (l.map f).sum := by
  induction l with
  | nil => intro c; simp
  | cons x l ih => intro c; rw [sumBy_cons, ih]; simp [List.map_cons]; ring

theorem sumBy_eq_sum {α : Type} (f : α → ℚ) (l : List α) :
    sumBy f l = (l.map f).sum := by
  unfold sumBy; rw [foldl_add_eq]; simp

theorem sumBy_perm {α : Type} (f : α → ℚ) {l₁ l₂ : List α}
    (h : l₁.Perm l₂) : sumBy f l₁ = sumBy f l₂ := by
  rw [sumBy_eq_sum, sumBy_eq_sum]; exact (h.map f).sum_eq

theorem sumBy_sortByDateDesc (f : Payment → ℚ) (l : List Payment) :
    sumBy f (sortByDateDesc l) = sumBy f l :=
  sumBy_perm f (List.mergeSort_perm l _)

/-! ## C4 — status derivation is a pure function of `(paid, amount)` -/

/-- C4: for every invoice amount `A > 0` and paid total `P ≥ 0`, the status
the payment route derives is: `unpaid` when `P = 0`, `partial` when
`0 < P < A`, and `paid` when `P ≥ A` (including `P = A` and `P > A`). -/
theorem c4_status_pure_function (A P : ℚ) (hA : 0 < A) (hP : 0 ≤ P) :
    (P = 0 → deriveStatus P A = .unpaid) ∧
    (0 < P ∧ P < A → deriveStatus P A = .partial') ∧
    (A ≤ P → deriveStatus P A = .paid) := by
  refine ⟨?_, ?_, ?_⟩
  · intro h
    subst h
    unfold deriveStatus
    rw [if_neg (by linarith), if_neg (by linarith)]
  · rintro ⟨h1, h2⟩
    unfold deriveStatus
    rw [if_neg (by linarith), if_pos h1]
  · intro h
    unfold deriveStatus
    rw [if_pos h]

/-- Witness for C4 at `(A, P) = (100, 40)`. -/
theorem c4_witness :
    (0 : ℚ) < 100 ∧ (0 : ℚ) ≤ 40 ∧ deriveStatus 40 100 = .partial' :=
  ⟨by norm_num, by norm_num,
    (c4_status_pure_function 100 40 (by norm_num) (by norm_num)).2.1
      ⟨by norm_num, by norm_num⟩⟩

/-! ## C7 — dashboard analytics and the `lastUpdate` field -/

/-- C7 counterexample: two calls with identical arguments and an identical
(empty) ledger, one second apart, return different responses — the
`lastUpdate` field carries the wall clock. -/
theorem c7_counterexample :
    dashboardAnalytics emptyMemState "u1" 1 2025 0
      ≠ dashboardAnalytics emptyMemState "u1" 1 2025 1000 :=
  fun h => absurd (congrArg DashboardResponse.lastUpdate h) (by decide)

/-- C7 amended: every field of the dashboard response except `lastUpdate`
(the monthly block, the yearly block and the receivables) depends only on
the ledger snapshot and the requested month and year, so repeated calls
with no intervening writes agree on all of them. -/
theorem c7_aggregates_time_independent (st : MemState) (userId : String)
    (month year t₁ t₂ : Int) :
    (dashboardAnalytics st userId month year t₁).monthly
        = (dashboardAnalytics st userId month year t₂).monthly ∧
    (dashboardAnalytics st userId month year t₁).yearly
        = (dashboardAnalytics st userId month year t₂).yearly ∧
    (dashboardAnalytics st userId month year t₁).receivables
        = (dashboardAnalytics st userId month year t₂).receivables :=
  ⟨rfl, rfl, rfl⟩

/-! ## C10 — payment queries on missing or foreign invoices -/

/-- C10: in both storage backends, querying the payments of an invoice
that does not resolve for the acting tenant (absent, or owned by another
tenant) returns the empty list instead of an error. -/
theorem c10_payments_query_empty (mst : MemState) (pst : PgState)
    (invoiceId userId : String) :
    (memGetInvoice mst invoiceId userId = none →
      memGetPaymentsByInvoice mst invoiceId userId = []) ∧
    (pgGetInvoice pst invoiceId userId = none →
      pgGetPaymentsByInvoice pst invoiceId userId = []) := by
  constructor
  · intro h
    unfold memGetPaymentsByInvoice
    rw [h]
  · intro h
    unfold pgGetPaymentsByInvoice
    rw [h]

/-- Witness for C10: a store whose only invoice belongs to tenant `u2`,
queried by tenant `u1`. -/
theorem c10_witness :
    memGetPaymentsByInvoice memForeignState "i1" "u1" = [] ∧
    pgGetPaymentsByInvoice pgForeignState "i1" "u1" = [] :=
  ⟨(c10_payments_query_empty memForeignState pgForeignState "i1" "u1").1
      (by decide),
   (c10_payments_query_empty memForeignState pgForeignState "i1" "u1").2
      (by decide)⟩

/-! ## C6 — recording a payment against a missing or foreign invoice -/

/-- C6: a validated payment request whose invoice does not resolve for the
acting tenant is rejected by both backends with the access-denial error.
The result carries no state: the throw occurs before any write, so no
payment row is persisted and no invoice is updated. -/
theorem c6_reject_missing_invoice (mst : MemState) (pst : PgState)
    (req : InsertPayment) (userId pid id : String) (now : Int)
    (hne : req.invoiceId ≠ "") (hamt : 0 < req.amount) :
    (memGetInvoice mst req.invoiceId userId = none →
      recordPayment mst userId req pid now
        = .error "Invoice not found or access denied") ∧
    (pgGetInvoice pst req.invoiceId userId = none →
      pgCreatePayment pst req userId id now
        = .error "Invoice not found or access denied") := by
  constructor
  · intro h
    unfold recordPayment
    rw [if_neg hne, if_neg (not_not_intro hamt)]
    unfold memCreatePayment
    unfold memGetInvoice at h
    cases hfind : mst.invoices.find? (fun inv => inv.id == req.invoiceId) with
    | none => rfl
    | some inv =>
      rw [hfind] at h
      simp only at h
      have huid : (inv.userId == userId) = false := by
        by_cases hb : (inv.userId == userId) = true
        · rw [if_pos hb] at h
          exact absurd h (by simp)
        · simpa using hb
      simp [huid]
  · intro h
    unfold pgCreatePayment
    rw [if_neg hne, h]

/-- Witness for C6: tenant `u1` pays invoice `i1`, which belongs to `u2`. -/
theorem c6_witness :
    recordPayment memForeignState "u1" { invoiceId := "i1", amount := 50, date := none }
        "p1" 0 = .error "Invoice not found or access denied" ∧
    pgCreatePayment pgForeignState { invoiceId := "i1", amount := 50, date := none }
        "u1" "p1" 0 = .error "Invoice not found or access denied" :=
  ⟨(c6_reject_missing_invoice memForeignState pgForeignState
      { invoiceId := "i1", amount := 50, date := none } "u1" "p1" "p1" 0
      (by decide) (by norm_num)).1 (by decide),
   (c6_reject_missing_invoice memForeignState pgForeignState
      { invoiceId := "i1", amount := 50, date := none } "u1" "p1" "p1" 0
      (by decide) (by norm_num)).2 (by decide)⟩

/-! ## C3 — the auto-numbering retry loop -/

theorem createInvoiceLoop_spec (attempts : Nat → AttemptResult) :
    ∀ fuel attempt, attempt + fuel = maxRetries →
    0 < fuel →
    createInvoiceLoop attempts attempt fuel =
      (match (List.range' attempt fuel).find?
          (fun k => ! isViolationResult (attempts k)) with
       | some k =>
         (match attempts k with
          | .ok inv => CreateResult.ok inv
          | .err e => CreateResult.dbErr e)
       | none =>
         CreateResult.fatal
           "Unable to generate unique invoice number after multiple attempts") := by
  intro fuel
  induction fuel with
  | zero => intro attempt _ h0; omega
  | succ fuel ih =>
    intro attempt hsum _
    rw [List.range'_succ]
    unfold createInvoiceLoop
    cases hatt : attempts attempt with
    | ok inv =>
      simp [List.find?_cons, hatt, isViolationResult]
    | err e =>
      by_cases hv : isUserInvoiceNumberViolation e = true
      · have hpred : isViolationResult (attempts attempt) = true := by
          rw [hatt]; exact hv
        have h10 : maxRetries = 10 := rfl
        by_cases h9 : attempt = maxRetries - 1
        · have hfuel : fuel = 0 := by rw [h10] at hsum; rw [h10] at h9; omega
          subst hfuel
          subst h9
          simp [List.find?_cons, List.range', hatt, isViolationResult, hv]
        · have hfuel : 0 < fuel := by rw [h10] at hsum; rw [h10] at h9; omega
          rw [ih (attempt + 1) (by rw [h10] at hsum ⊢; omega) hfuel]
          simp [List.find?_cons, hatt, isViolationResult, hv, h9]
      · have hpred : isViolationResult (attempts attempt) = false := by
          rw [hatt]; simpa using hv
        simp [List.find?_cons, hatt, isViolationResult, hv]

/-- C3: the auto-numbered `createInvoice` retries the read-propose-insert
round trip on each `user_invoice_number` uniqueness violation for up to 10
attempts, fails with the fatal error
`'Unable to generate unique invoice number after multiple attempts'` when
all 10 attempts collide, and returns the outcome of the first
non-colliding attempt unchanged — in particular any other database error
is propagated as-is without a retry.  (The sub-100ms random sleep between
retries, `setTimeout(..., Math.random() * 100)`, is wall-clock behaviour
with no effect on the result and is outside this state model.) -/
theorem c3_retry_semantics (attempts : Nat → AttemptResult) :
    pgCreateInvoiceAuto attempts = retrySpec attempts := by
  unfold pgCreateInvoiceAuto retrySpec
  rw [List.range_eq_range']
  exact createInvoiceLoop_spec attempts maxRetries 0 rfl (by decide)

/-! ## The payment route: success-path characterization (for C5 and C9) -/

theorem find?_map_pred {α : Type} (f : α → α) (p : α → Bool)
    (hp : ∀ x, p (f x) = p x) :
    ∀ l : List α, (l.map f).find? p = (l.find? p).map f := by
  intro l
  induction l with
  | nil => rfl
  | cons x l ih =>
    by_cases hpx : p x = true
    · simp [List.find?_cons, hp, hpx]
    · simp only [Bool.not_eq_true] at hpx
      simp [List.find?_cons, hp, hpx, ih]

theorem recordPayment_found_eq (st : MemState) (userId : String)
    (req : InsertPayment) (pid : String) (now : Int) (inv : Invoice)
    (hne : req.invoiceId ≠ "") (hamt : 0 < req.amount)
    (hfind : st.invoices.find? (fun i => i.id == req.invoiceId) = some inv)
    (huid : inv.userId = userId) :
    recordPayment st userId req pid now
      = .ok (paymentOf req pid now, postPaymentState st req pid now inv) := by
  simp [recordPayment, memCreatePayment, memGetInvoice, memUpdateInvoice,
    memGetPaymentsByInvoice, hne, hamt, hfind, huid,
    postPaymentState, updatedInvoice, recomputedTotal, paymentOf, applyUpdate]

theorem recordPayment_ok_then_found (st : MemState) (userId : String)
    (req : InsertPayment) (pid : String) (now : Int) (pay : Payment)
    (st' : MemState)
    (h : recordPayment st userId req pid now = .ok (pay, st')) :
    req.invoiceId ≠ "" ∧ 0 < req.amount ∧
      ∃ inv, st.invoices.find? (fun i => i.id == req.invoiceId) = some inv
        ∧ inv.userId = userId := by
  by_cases hne : req.invoiceId = ""
  · have heq : recordPayment st userId req pid now = .error "Invalid payment data" := by
      simp [recordPayment, hne]
    rw [heq] at h
    exact absurd h (by simp)
  by_cases hamt : 0 < req.amount
  · refine ⟨hne, hamt, ?_⟩
    cases hfind : st.invoices.find? (fun i => i.id == req.invoiceId) with
    | none =>
      have heq : recordPayment st userId req pid now
          = .error "Invoice not found or access denied" := by
        simp [recordPayment, memCreatePayment, hne, hamt, hfind]
      rw [heq] at h
      exact absurd h (by simp)
    | some inv =>
      by_cases huid : (inv.userId == userId) = true
      · exact ⟨inv, rfl, by simpa using huid⟩
      · have heq : recordPayment st userId req pid now
            = .error "Invoice not found or access denied" := by
          simp [recordPayment, memCreatePayment, hne, hamt, hfind, huid]
        rw [heq] at h
        exact absurd h (by simp)
  · have heq : recordPayment st userId req pid now = .error "Invalid payment data" := by
      simp [recordPayment, hne, hamt]
    rw [heq] at h
    exact absurd h (by simp)

theorem memGetInvoice_postPaymentState (st : MemState) (userId : String)
    (req : InsertPayment) (pid : String) (now : Int) (inv : Invoice)
    (hfind : st.invoices.find? (fun i => i.id == req.invoiceId) = some inv)
    (huid : inv.userId = userId) :
    memGetInvoice (postPaymentState st req pid now inv) req.invoiceId userId
      = some (updatedInvoice st req pid now inv) := by
  have hid : (inv.id == req.invoiceId) = true := by
    have := List.find?_some hfind
    simpa using this
  have hupdid : (updatedInvoice st req pid now inv).id = inv.id := rfl
  have hp : ∀ i : Invoice,
      ((if i.id == req.invoiceId then updatedInvoice st req pid now inv else i).id
          == req.invoiceId)
        = (i.id == req.invoiceId) := by
    intro i
    by_cases hc : (i.id == req.invoiceId) = true
    · rw [if_pos hc, hupdid, hid, hc]
    · simp only [Bool.not_eq_true] at hc
      rw [if_neg (by simp [hc]), hc]
  unfold memGetInvoice postPaymentState
  rw [find?_map_pred _ _ hp st.invoices, hfind]
  have hid' : inv.id = req.invoiceId := by simpa using hid
  simp [hid', huid,
    show (updatedInvoice st req pid now inv).userId = inv.userId from rfl]

/-! ## C5 — `paid_amount` is recomputed from the payment rows -/

/-- C5: after every successful `recordPayment`, the persisted
`paid_amount` of the referenced invoice equals the sum of the amounts of
all payment rows currently associated with that invoice in the resulting
store — recomputed from the rows, not accumulated. -/
theorem c5_paid_amount_recompute (st : MemState) (userId : String)
    (req : InsertPayment) (pid : String) (now : Int) (pay : Payment)
    (st' : MemState)
    (h : recordPayment st userId req pid now = .ok (pay, st')) :
    (memGetInvoice st' req.invoiceId userId).map (fun i => i.paidAmount)
      = some (sumBy (fun p => p.amount)
          (st'.payments.filter (fun p => p.invoiceId == req.invoiceId))) := by
  obtain ⟨hne, hamt, inv, hfind, huid⟩ :=
    recordPayment_ok_then_found st userId req pid now pay st' h
  rw [recordPayment_found_eq st userId req pid now inv hne hamt hfind huid] at h
  have hst : postPaymentState st req pid now inv = st' := by
    have := h
    simp only [Except.ok.injEq, Prod.mk.injEq] at this
    exact this.2
  subst hst
  rw [memGetInvoice_postPaymentState st userId req pid now inv hfind huid]
  simp only [Option.map_some']
  rw [show (updatedInvoice st req pid now inv).paidAmount
      = recomputedTotal st req pid now from rfl]
  rw [show (postPaymentState st req pid now inv).payments
      = st.payments ++ [paymentOf req pid now] from rfl]
  unfold recomputedTotal
  rw [sumBy_sortByDateDesc]

/-- Witness for C5: paying 40 against the 100-amount invoice of
`oneInvoiceState` yields `paid_amount = 40 = ` the sum over the single
payment row. -/
theorem c5_witness :
    recordPayment oneInvoiceState "u1" { invoiceId := "i1", amount := 40, date := none }
        "p2" 0 = .ok (c5Pay, c5State) ∧
    (memGetInvoice c5State "i1" "u1").map (fun i => i.paidAmount)
      = some (sumBy (fun p => p.amount)
          (c5State.payments.filter (fun p => p.invoiceId == "i1"))) := by
  have hrun : recordPayment oneInvoiceState "u1"
      { invoiceId := "i1", amount := 40, date := none } "p2" 0
      = .ok (c5Pay, c5State) := by
    rw [recordPayment_found_eq oneInvoiceState "u1"
      { invoiceId := "i1", amount := 40, date := none } "p2" 0 noDueDateInvoice
      (by decide) (by norm_num) (by decide) rfl]
    unfold postPaymentState updatedInvoice recomputedTotal paymentOf applyUpdate
      sortByDateDesc sumBy deriveStatus c5State c5Pay oneInvoiceState
      memCreateInvoice emptyMemState plainInsertInvoice noDueDateInvoice
    norm_num [List.mergeSort]
  exact ⟨hrun,
    c5_paid_amount_recompute oneInvoiceState "u1"
      { invoiceId := "i1", amount := 40, date := none } "p2" 0 c5Pay c5State hrun⟩

/-! ## C9 — overpayment is accepted and persisted -/

theorem overpayRun_eq :
    recordPayment oneInvoiceState "u1"
        { invoiceId := "i1", amount := 150, date := none } "p1" 0
      = .ok (c9Pay, c9State) := by
  rw [recordPayment_found_eq oneInvoiceState "u1"
    { invoiceId := "i1", amount := 150, date := none } "p1" 0 noDueDateInvoice
    (by decide) (by norm_num) (by decide) rfl]
  unfold postPaymentState updatedInvoice recomputedTotal paymentOf applyUpdate
    sortByDateDesc sumBy deriveStatus c9State c9Inv c9Pay oneInvoiceState
    memCreateInvoice emptyMemState plainInsertInvoice noDueDateInvoice
  norm_num [List.mergeSort]

/-- C9 counterexample: on the 100-amount invoice of `oneInvoiceState`, a
single payment of 150 succeeds and persists `paid_amount = 150 > 100 =
amount` — the claimed bound is violated by one payment operation. -/
theorem c9_counterexample :
    overpayRun = .ok (c9Pay, c9State) ∧
    (memGetInvoice c9State "i1" "u1").map (fun i => (i.paidAmount, i.amount))
      = some (150, 100) ∧
    (100 : ℚ) < 150 :=
  ⟨overpayRun_eq, by decide, by norm_num⟩

/-- C9 amended: the application applies no overpayment bound — after a
successful `recordPayment` the persisted `paid_amount` is the full
recomputed payment total even when it exceeds `amount`, and whenever
`paid_amount ≥ amount` the persisted status is `paid`. -/
theorem c9_overpay_marked_paid (st : MemState) (userId : String)
    (req : InsertPayment) (pid : String) (now : Int) (pay : Payment)
    (st' : MemState) (inv' : Invoice)
    (h : recordPayment st userId req pid now = .ok (pay, st'))
    (hinv : memGetInvoice st' req.invoiceId userId = some inv')
    (hover : inv'.amount ≤ inv'.paidAmount) :
    inv'.status = .paid := by
  obtain ⟨hne, hamt, inv, hfind, huid⟩ :=
    recordPayment_ok_then_found st userId req pid now pay st' h
  rw [recordPayment_found_eq st userId req pid now inv hne hamt hfind huid] at h
  have hst : postPaymentState st req pid now inv = st' := by
    have := h
    simp only [Except.ok.injEq, Prod.mk.injEq] at this
    exact this.2
  subst hst
  rw [memGetInvoice_postPaymentState st userId req pid now inv hfind huid] at hinv
  have hinv' : inv' = updatedInvoice st req pid now inv := by
    have := hinv
    simp only [Option.some.injEq] at this
    exact this.symm
  subst hinv'
  show deriveStatus (recomputedTotal st req pid now) inv.amount = .paid
  have hover' : recomputedTotal st req pid now ≥ inv.amount := hover
  unfold deriveStatus
  rw [if_pos hover']

/-- Witness for C9's amended theorem at the `overpayRun` instance. -/
theorem c9_witness :
    memGetInvoice c9State "i1" "u1" = some c9Inv ∧
    c9Inv.amount ≤ c9Inv.paidAmount ∧
    c9Inv.status = .paid :=
  ⟨by decide, by norm_num [c9Inv, noDueDateInvoice],
    c9_overpay_marked_paid oneInvoiceState "u1"
      { invoiceId := "i1", amount := 150, date := none } "p1" 0 c9Pay c9State
      c9Inv overpayRun_eq (by decide)
      (by norm_num [c9Inv, noDueDateInvoice])⟩

/-! ## Decimal rendering and parsing lemmas (for C1 and C2) -/

theorem digitChar_isDigit (d : Nat) : (digitChar d).isDigit = true := by
  unfold digitChar
  split <;> decide

theorem digitChar_toNat (d : Nat) (h : d < 10) : (digitChar d).toNat - 48 = d := by
  interval_cases d <;> decide

theorem natChars_lt (n : Nat) (h : n < 10) : natChars n = [digitChar n] := by
  conv_lhs => rw [natChars]
  rw [dif_pos h]

theorem natChars_ge (n : Nat) (h : ¬ n < 10) :
    natChars n = natChars (n / 10) ++ [digitChar (n % 10)] := by
  conv_lhs => rw [natChars]
  rw [dif_neg h]

theorem natChars_isDigit (n : Nat) : ∀ c ∈ natChars n, c.isDigit = true := by
  induction n using Nat.strong_induction_on with
  | _ n ih =>
    by_cases h : n < 10
    · rw [natChars_lt n h]
      intro c hc
      simp only [List.mem_singleton] at hc
      subst hc
      exact digitChar_isDigit n
    · rw [natChars_ge n h]
      intro c hc
      rcases List.mem_append.mp hc with h1 | h2
      · exact ih (n / 10) (Nat.div_lt_self (by omega) (by omega)) c h1
      · simp only [List.mem_singleton] at h2
        subst h2
        exact digitChar_isDigit _

theorem natChars_ne_nil (n : Nat) : natChars n ≠ [] := by
  by_cases h : n < 10
  · rw [natChars_lt n h]; simp
  · rw [natChars_ge n h]; simp

theorem charsVal_append_singleton (l : List Char) (c : Char) :
    charsVal (l ++ [c]) = charsVal l * 10 + (c.toNat - 48) := by
  unfold charsVal
  rw [List.foldl_append]
  rfl

theorem charsVal_natChars (n : Nat) : charsVal (natChars n) = n := by
  induction n using Nat.strong_induction_on with
  | _ n ih =>
    by_cases h : n < 10
    · rw [natChars_lt n h]
      have h1 : charsVal [digitChar n] = (digitChar n).toNat - 48 := by
        unfold charsVal
        simp
      rw [h1, digitChar_toNat n h]
    · rw [natChars_ge n h, charsVal_append_singleton,
        ih (n / 10) (Nat.div_lt_self (by omega) (by omega)),
        digitChar_toNat (n % 10) (Nat.mod_lt n (by omega))]
      omega

theorem charsVal_cons_zero (t : List Char) : charsVal ('0' :: t) = charsVal t := by
  have h : ((0 : Nat) * 10 + ('0'.toNat - 48)) = 0 := by decide
  simp only [charsVal, List.foldl_cons]
  rw [h]

theorem charsVal_replicate_zero (k : Nat) (l : List Char) :
    charsVal (List.replicate k '0' ++ l) = charsVal l := by
  induction k with
  | zero => simp
  | succ k ih =>
    rw [List.replicate_succ, List.cons_append, charsVal_cons_zero, ih]

theorem parseNatLeading_digits (l : List Char) (hne : l ≠ [])
    (hdig : ∀ c ∈ l, c.isDigit = true) :
    parseNatLeading ⟨l⟩ = some (charsVal l) := by
  unfold parseNatLeading
  have htw : l.takeWhile (fun c => c.isDigit) = l :=
    List.takeWhile_eq_self_iff.mpr hdig
  show (if (l.takeWhile (fun c => c.isDigit)).isEmpty = true then none
    else some (charsVal (l.takeWhile (fun c => c.isDigit)))) = some (charsVal l)
  rw [htw, if_neg (by simpa [List.isEmpty_iff] using hne)]

/-! ## `split('-')` lemmas (for C1 and C2) -/

theorem splitDashChars_ne_nil (l : List Char) : splitDashChars l ≠ [] := by
  induction l with
  | nil => simp [splitDashChars]
  | cons c cs ih =>
    unfold splitDashChars
    by_cases hc : c = '-'
    · rw [if_pos hc]; simp
    · rw [if_neg hc]
      cases h : splitDashChars cs with
      | nil => simp
      | cons hd tl => simp

theorem splitDashChars_no_dash_append (l1 l2 : List Char)
    (h1 : ∀ c ∈ l1, c ≠ '-') :
    splitDashChars (l1 ++ '-' :: l2) = l1 :: splitDashChars l2 := by
  induction l1 with
  | nil => simp [splitDashChars]
  | cons c cs ih =>
    have hc : c ≠ '-' := h1 c (by simp)
    have ih' := ih (fun x hx => h1 x (by simp [hx]))
    show splitDashChars (c :: (cs ++ '-' :: l2)) = (c :: cs) :: splitDashChars l2
    conv_lhs => rw [splitDashChars]
    rw [if_neg hc, ih']

theorem splitDashChars_head (l : List Char) :
    (splitDashChars l).head? = some (l.takeWhile (fun c => c != '-')) := by
  induction l with
  | nil => rfl
  | cons c cs ih =>
    by_cases hc : c = '-'
    · subst hc
      rw [List.takeWhile_cons]
      conv_lhs => rw [splitDashChars]
      simp
    · conv_lhs => rw [splitDashChars]
      rw [if_neg hc]
      cases h : splitDashChars cs with
      | nil => exact absurd h (splitDashChars_ne_nil cs)
      | cons hd tl =>
        rw [h] at ih
        simp only [List.head?] at ih
        rw [List.takeWhile_cons]
        have hcb : (c != '-') = true := by simpa using hc
        rw [hcb]
        simp only [if_true, List.head?]
        rw [show hd = cs.takeWhile (fun c => c != '-') by simpa using ih]

/-! ## The `FT-<year>-` tag and suffix parsing (for C1 and C2) -/

theorem digit_ne_dash (c : Char) (h : c.isDigit = true) : c ≠ '-' := by
  intro hc
  subst hc
  exact absurd h (by decide)

theorem natChars_ne_dash (year : Nat) : ∀ c ∈ natChars year, c ≠ '-' :=
  fun c hc => digit_ne_dash c (natChars_isDigit year c hc)

theorem yearTag_data (year : Nat) :
    (yearTag year).data = 'F' :: 'T' :: '-' :: (natChars year ++ ['-']) := by
  show ("FT-" ++ natRepr year ++ "-").data = _
  rw [String.data_append, String.data_append]
  have h1 : "FT-".data = ['F', 'T', '-'] := by decide
  have h2 : "-".data = ['-'] := by decide
  rw [h1, h2]
  show ['F', 'T', '-'] ++ natChars year ++ ['-'] = _
  simp

theorem jsSuffixVal_tag_append (year : Nat) (rest : List Char) :
    jsSuffixVal ⟨(yearTag year).data ++ rest⟩
      = (if rest.takeWhile (fun c => c != '-') = [] then some 0
         else parseNatLeading ⟨rest.takeWhile (fun c => c != '-')⟩) := by
  unfold jsSuffixVal splitDash
  rw [show ((⟨(yearTag year).data ++ rest⟩ : String)).data
      = (yearTag year).data ++ rest from rfl]
  have hdata : (yearTag year).data ++ rest
      = ['F', 'T'] ++ '-' :: (natChars year ++ '-' :: rest) := by
    rw [yearTag_data]
    simp
  rw [hdata]
  rw [splitDashChars_no_dash_append ['F', 'T'] _ (by decide)]
  rw [splitDashChars_no_dash_append (natChars year) rest (natChars_ne_dash year)]
  rw [List.map_cons, List.map_cons]
  rw [show ∀ (a b : String) (t : List String), (a :: b :: t)[2]? = t.head? from
    fun a b t => by cases t <;> simp]
  rw [show ((splitDashChars rest).map (fun l => (⟨l⟩ : String))).head?
      = ((splitDashChars rest).head?).map (fun l => (⟨l⟩ : String)) from by
    cases splitDashChars rest <;> rfl]
  rw [splitDashChars_head]
  simp only [Option.map_some']
  have hmk : ∀ t : List Char, (⟨t⟩ : String) = "" → t = [] := by
    intro t ht
    have hd := congrArg String.data ht
    rwa [show ((⟨t⟩ : String)).data = t from rfl,
      show ("" : String).data = [] from by decide] at hd
  by_cases hcut : rest.takeWhile (fun c => c != '-') = []
  · rw [hcut]
    simp
  · rw [if_neg hcut]
    rw [if_neg (fun habs => hcut (hmk _ habs))]

theorem takeWhile_digit_cut (l : List Char) :
    (l.takeWhile (fun c => c != '-')).takeWhile (fun c => c.isDigit)
      = l.takeWhile (fun c => c.isDigit) := by
  induction l with
  | nil => rfl
  | cons c cs ih =>
    by_cases hc : c = '-'
    · subst hc
      rw [List.takeWhile_cons, List.takeWhile_cons]
      simp
    · have hcb : (c != '-') = true := by simpa using hc
      rw [List.takeWhile_cons, hcb]
      simp only [if_true]
      by_cases hd : c.isDigit = true
      · rw [List.takeWhile_cons, List.takeWhile_cons, hd]
        simp only [if_true]
        rw [ih]
      · rw [List.takeWhile_cons, List.takeWhile_cons]
        simp [hd]

theorem parseNatLeading_cut (rest : List Char) :
    parseNatLeading ⟨rest.takeWhile (fun c => c != '-')⟩
      = parseNatLeading ⟨rest⟩ := by
  unfold parseNatLeading
  rw [show ((⟨rest.takeWhile (fun c => c != '-')⟩ : String)).data
      = rest.takeWhile (fun c => c != '-') from rfl]
  rw [show ((⟨rest⟩ : String)).data = rest from rfl]
  rw [takeWhile_digit_cut]

theorem parseNatLeading_none_of_cut_nil (rest : List Char)
    (h : rest.takeWhile (fun c => c != '-') = []) :
    parseNatLeading ⟨rest⟩ = none := by
  rw [← parseNatLeading_cut rest, h]
  rfl

theorem strStartsWith_iff_exists (s p : String) :
    strStartsWith s p = true ↔ ∃ t, s.data = p.data ++ t := by
  unfold strStartsWith
  rw [ List.isPrefixOf_iff_prefix]
  constructor
  · rintro ⟨t, ht⟩
    exact ⟨t, ht.symm⟩
  · rintro ⟨t, ht⟩
    exact ⟨t, ht.symm⟩

theorem strStartsWith_append (p : String) (t : List Char) :
    strStartsWith ⟨p.data ++ t⟩ p = true := by
  rw [strStartsWith_iff_exists]
  exact ⟨t, rfl⟩

theorem specVal_tag_append (year : Nat) (rest : List Char) :
    parseNatLeading (strDrop ⟨(yearTag year).data ++ rest⟩ (yearTag year).length)
      = parseNatLeading ⟨rest⟩ := by
  unfold strDrop
  rw [show ((⟨(yearTag year).data ++ rest⟩ : String)).data
      = (yearTag year).data ++ rest from rfl]
  rw [show (yearTag year).length = (yearTag year).data.length from rfl]
  rw [List.drop_left]

/-! ## The numbering pipeline: source form versus spec form (C1) -/

theorem listMax_cons (x : Nat) (l : List Nat) :
    listMax (x :: l) = max x (listMax l) := rfl

theorem le_listMax (x : Nat) (l : List Nat) (h : x ∈ l) : x ≤ listMax l := by
  induction l with
  | nil => cases h
  | cons a t ih =>
    rw [listMax_cons]
    rcases List.mem_cons.mp h with h1 | h2
    · subst h1
      exact Nat.le_max_left _ _
    · exact le_trans (ih h2) (Nat.le_max_right _ _)

theorem listMax_zero (l : List Nat) (h : ∀ x ∈ l, x = 0) : listMax l = 0 := by
  induction l with
  | nil => rfl
  | cons a t ih =>
    rw [listMax_cons, h a (by simp), ih (fun x hx => h x (by simp [hx]))]
    simp

theorem jsSeqVals_cons (userId : String) (year : Nat) (inv : Invoice)
    (invs : List Invoice) :
    jsSeqVals userId year (inv :: invs)
      = if (inv.userId == userId && strStartsWith inv.number (yearTag year)) = true
        then (match jsSuffixVal inv.number with
              | some v => v :: jsSeqVals userId year invs
              | none => jsSeqVals userId year invs)
        else jsSeqVals userId year invs := by
  unfold jsSeqVals
  rw [List.filter_cons]
  by_cases hg : (inv.userId == userId && strStartsWith inv.number (yearTag year)) = true
  · rw [if_pos hg, if_pos hg, List.map_cons, List.filterMap_cons]
    cases jsSuffixVal inv.number <;> rfl
  · rw [if_neg hg, if_neg hg]

theorem specSeqVals_cons (userId : String) (year : Nat) (inv : Invoice)
    (invs : List Invoice) :
    specSeqVals userId year (inv :: invs)
      = if (inv.userId == userId && strStartsWith inv.number (yearTag year)) = true
        then (match parseNatLeading (strDrop inv.number (yearTag year).length) with
              | some v => v :: specSeqVals userId year invs
              | none => specSeqVals userId year invs)
        else specSeqVals userId year invs := by
  unfold specSeqVals
  rw [List.filterMap_cons]
  by_cases hg : (inv.userId == userId && strStartsWith inv.number (yearTag year)) = true
  · rw [if_pos hg, if_pos hg]
    cases parseNatLeading (strDrop inv.number (yearTag year).length) <;> rfl
  · rw [if_neg hg, if_neg hg]

theorem suffix_rel (year : Nat) (inv : Invoice)
    (hsw : strStartsWith inv.number (yearTag year) = true) :
    jsSuffixVal inv.number
        = parseNatLeading (strDrop inv.number (yearTag year).length)
    ∨ (jsSuffixVal inv.number = some 0
        ∧ parseNatLeading (strDrop inv.number (yearTag year).length) = none) := by
  obtain ⟨t, ht⟩ := (strStartsWith_iff_exists _ _).mp hsw
  have hnum : inv.number = ⟨(yearTag year).data ++ t⟩ := by
    rw [← ht]
  rw [hnum, jsSuffixVal_tag_append, specVal_tag_append]
  by_cases hcut : t.takeWhile (fun c => c != '-') = []
  · right
    exact ⟨by rw [if_pos hcut], parseNatLeading_none_of_cut_nil t hcut⟩
  · left
    rw [if_neg hcut, parseNatLeading_cut]

theorem seqVals_rel (userId : String) (year : Nat) (invs : List Invoice) :
    listMax (jsSeqVals userId year invs) = listMax (specSeqVals userId year invs)
    ∧ (specSeqVals userId year invs = [] →
        ∀ x ∈ jsSeqVals userId year invs, x = 0)
    ∧ (specSeqVals userId year invs ≠ [] → jsSeqVals userId year invs ≠ []) := by
  induction invs with
  | nil =>
    refine ⟨rfl, ?_, ?_⟩
    · intro _ x hx
      cases hx
    · intro h
      exact absurd rfl h
  | cons inv invs ih =>
    obtain ⟨ih1, ih2, ih3⟩ := ih
    rw [jsSeqVals_cons, specSeqVals_cons]
    by_cases hg : (inv.userId == userId && strStartsWith inv.number (yearTag year)) = true
    · rw [if_pos hg, if_pos hg]
      have hsw : strStartsWith inv.number (yearTag year) = true :=
        (Bool.and_eq_true_iff.mp hg).2
      rcases suffix_rel year inv hsw with heq | ⟨hj, hs⟩
      · rw [heq]
        cases hv : parseNatLeading (strDrop inv.number (yearTag year).length) with
        | none => exact ⟨ih1, ih2, ih3⟩
        | some v =>
          refine ⟨?_, ?_, ?_⟩
          · rw [listMax_cons, listMax_cons, ih1]
          · intro habs
            exact absurd habs (by simp)
          · intro _
            simp
      · rw [hj, hs]
        refine ⟨?_, ?_, ?_⟩
        · rw [listMax_cons, ih1]
          exact Nat.zero_max _
        · intro hsp x hx
          rcases List.mem_cons.mp hx with h1 | h2
          · exact h1
          · exact ih2 hsp x h2
        · intro hsp
          simp
    · rw [if_neg hg, if_neg hg]
      exact ⟨ih1, ih2, ih3⟩

theorem jsNextSeq_eq_spec (userId : String) (year : Nat) (invs : List Invoice) :
    jsNextSeq userId year invs = specNextSeq userId year invs := by
  obtain ⟨h1, h2, h3⟩ := seqVals_rel userId year invs
  unfold jsNextSeq specNextSeq
  by_cases hsp : specSeqVals userId year invs = []
  · rw [hsp]
    simp only [List.length_nil, lt_irrefl, if_false]
    by_cases hjs : jsSeqVals userId year invs = []
    · rw [hjs]
      simp
    · rw [if_pos (List.length_pos.mpr hjs), listMax_zero _ (h2 hsp)]
  · rw [if_pos (List.length_pos.mpr (h3 hsp)), if_pos (List.length_pos.mpr hsp), h1]

theorem generateInvoiceNumber_eq (userId : String) (year : Nat)
    (invs : List Invoice) :
    generateInvoiceNumber userId year invs
      = yearTag year ++ padStart3 (natRepr (specNextSeq userId year invs)) := by
  rw [← jsNextSeq_eq_spec]
  rfl

/-! ## C1 — the generated invoice number -/

/-- C1: `createInvoice` without an explicit number assigns
`FT-<year>-<seq>`, where `seq` is one plus the maximum numeric suffix
among the tenant's persisted numbers carrying the `FT-<year>-` tag (1 when
no suffix parses), zero-padded to at least 3 digits.  `specNextSeq` is the
spec-worded scan; the proof shows it coincides with the source's
`split('-')[2]` / `parseInt` pipeline on every store. -/
theorem c1_generated_number (st : MemState) (req : InsertInvoice)
    (userId id : String) (year : Nat) (now : Int)
    (hnum : req.number = none) :
    ((memCreateInvoice st req userId id year now).1).number
      = yearTag year ++ padStart3 (natRepr (specNextSeq userId year st.invoices)) := by
  have hn : ((memCreateInvoice st req userId id year now).1).number
      = generateInvoiceNumber userId year st.invoices := by
    unfold memCreateInvoice
    rw [hnum]
  rw [hn, generateInvoiceNumber_eq]

/-- Witness for C1: the first auto-numbered invoice of a fresh store in
year 2025, instantiating the theorem at a concrete input. -/
theorem c1_witness :
    (plainInsertInvoice none 100).number = none ∧
    ((memCreateInvoice emptyMemState (plainInsertInvoice none 100) "u1" "i1"
        2025 0).1).number
      = yearTag 2025 ++ padStart3 (natRepr (specNextSeq "u1" 2025 emptyMemState.invoices)) :=
  ⟨rfl,
    c1_generated_number emptyMemState (plainInsertInvoice none 100) "u1" "i1"
      2025 0 rfl⟩

/-! ## C2 — uniqueness of invoice numbers -/

theorem generated_fresh (userId : String) (year : Nat) (invs : List Invoice) :
    ∀ inv ∈ invs, inv.userId = userId →
      inv.number ≠ generateInvoiceNumber userId year invs := by
  intro inv hmem huid heq
  have hgen : generateInvoiceNumber userId year invs
      = yearTag year ++ padStart3 (natRepr (jsNextSeq userId year invs)) := rfl
  set n := jsNextSeq userId year invs with hn
  have hpad : (padStart3 (natRepr n)).data
      = List.replicate (3 - (natChars n).length) '0' ++ natChars n := rfl
  have hdig : ∀ c ∈ (padStart3 (natRepr n)).data, c.isDigit = true := by
    rw [hpad]
    intro c hc
    rcases List.mem_append.mp hc with h1 | h2
    · have hc0 : c = '0' := List.eq_of_mem_replicate h1
      subst hc0
      decide
    · exact natChars_isDigit n c h2
  have hpne : (padStart3 (natRepr n)).data ≠ [] := by
    rw [hpad]
    simp [natChars_ne_nil n]
  have hgd : generateInvoiceNumber userId year invs
      = ⟨(yearTag year).data ++ (padStart3 (natRepr n)).data⟩ := by
    rw [hgen, ← String.data_append]
  have hjs : jsSuffixVal (generateInvoiceNumber userId year invs) = some n := by
    rw [hgd, jsSuffixVal_tag_append]
    have hcut : (padStart3 (natRepr n)).data.takeWhile (fun c => c != '-')
        = (padStart3 (natRepr n)).data :=
      List.takeWhile_eq_self_iff.mpr (fun c hc => by
        simpa using digit_ne_dash c (hdig c hc))
    rw [hcut, if_neg hpne, parseNatLeading_digits _ hpne hdig, hpad,
      charsVal_replicate_zero, charsVal_natChars]
  have hmem' : n ∈ jsSeqVals userId year invs := by
    unfold jsSeqVals
    rw [List.mem_filterMap]
    refine ⟨some n, ?_, rfl⟩
    rw [List.mem_map]
    refine ⟨inv, ?_, by rw [heq, hjs]⟩
    rw [List.mem_filter]
    refine ⟨hmem, ?_⟩
    rw [Bool.and_eq_true_iff]
    constructor
    · simp [huid]
    · rw [heq, hgd]
      exact strStartsWith_append _ _
  have hlen : 0 < (jsSeqVals userId year invs).length :=
    List.length_pos.mpr (by
      intro h0
      rw [h0] at hmem'
      cases hmem')
  have hmax : n ≤ listMax (jsSeqVals userId year invs) := le_listMax _ _ hmem'
  have hsucc : n = listMax (jsSeqVals userId year invs) + 1 := by
    rw [hn]
    unfold jsNextSeq
    rw [if_pos hlen]
  omega

theorem filter_map_append_invoice (invs : List Invoice) (newInv : Invoice)
    (u : String) :
    ((invs ++ [newInv]).filter (fun i => i.userId == u)).map (fun i => i.number)
      = (invs.filter (fun i => i.userId == u)).map (fun i => i.number)
        ++ (if (newInv.userId == u) = true then [newInv.number] else []) := by
  rw [List.filter_append, List.map_append]
  congr 1
  rw [List.filter_cons]
  by_cases hu : (newInv.userId == u) = true
  · rw [if_pos hu, if_pos hu]
    rfl
  · rw [if_neg hu, if_neg hu]
    rfl

theorem c2_step (st : MemState) (ev : AutoCreateEvent)
    (hst : ∀ v, (numbersOf st v).Nodup) (u : String) :
    (numbersOf
      ((memCreateInvoice st { ev.req with number := none } ev.userId ev.id
        ev.year ev.now).2) u).Nodup := by
  have hshape : ((memCreateInvoice st { ev.req with number := none } ev.userId
      ev.id ev.year ev.now).2).invoices
      = st.invoices ++ [(memCreateInvoice st { ev.req with number := none }
          ev.userId ev.id ev.year ev.now).1] := rfl
  have hnum : ((memCreateInvoice st { ev.req with number := none } ev.userId
      ev.id ev.year ev.now).1).number
      = generateInvoiceNumber ev.userId ev.year st.invoices := rfl
  have huid : ((memCreateInvoice st { ev.req with number := none } ev.userId
      ev.id ev.year ev.now).1).userId = ev.userId := rfl
  unfold numbersOf
  rw [hshape, filter_map_append_invoice]
  by_cases hu : (((memCreateInvoice st { ev.req with number := none } ev.userId
      ev.id ev.year ev.now).1).userId == u) = true
  · rw [if_pos hu]
    rw [List.nodup_append]
    refine ⟨hst u, by simp, ?_⟩
    intro x hxl hxr
    rw [List.mem_singleton] at hxr
    rcases List.mem_map.mp hxl with ⟨inv, hinvmem, hinvnum⟩
    rcases List.mem_filter.mp hinvmem with ⟨hmem, huid'⟩
    have huq : ev.userId = u := by
      rw [huid] at hu
      simpa using hu
    have hinvuid : inv.userId = ev.userId := by
      rw [huq]
      simpa using huid'
    exact generated_fresh ev.userId ev.year st.invoices inv hmem hinvuid
      (by rw [hinvnum, hxr, hnum])
  · rw [if_neg hu]
    simpa using hst u

/-- C2 amended: for purely auto-numbered creation, uniqueness holds — any
sequence of `MemStorage.createInvoice` calls that omit the explicit number
yields pairwise-distinct invoice numbers for every tenant (hence for every
tenant and year).  With explicit numbers `MemStorage` performs no
uniqueness check (see the counterexample); only the relational backend's
`user_invoice_number` constraint rejects such duplicates. -/
theorem c2_auto_numbers_nodup (evs : List AutoCreateEvent) (u : String) :
    (numbersOf (runAutoCreates evs) u).Nodup := by
  suffices h : ∀ st, (∀ v, (numbersOf st v).Nodup) →
      ∀ v, (numbersOf (evs.foldl (fun st ev =>
        (memCreateInvoice st { ev.req with number := none } ev.userId ev.id
          ev.year ev.now).2) st) v).Nodup by
    exact h emptyMemState (fun v => by simp [numbersOf, emptyMemState]) u
  induction evs with
  | nil =>
    intro st hst v
    simpa using hst v
  | cons ev evs ih =>
    intro st hst v
    rw [List.foldl_cons]
    exact ih _ (fun w => c2_step st ev hst w) v

/-- C2 counterexample: two `MemStorage.createInvoice` calls with the same
explicit number `FT-2025-001` for the same tenant both succeed, leaving
two invoices of tenant `u1` (same year 2025) with identical numbers. -/
theorem c2_counterexample : ¬ (numbersOf c2DupState "u1").Nodup := by
  decide

/-! ## C8 — the aging report buckets -/

/-- C8 amended: the report's buckets are exactly the non-paid invoices
with positive remaining balance whose *effective* due date — the persisted
one, or the Unix epoch when the invoice has none — lies 10 to 20
(respectively more than 20) whole days before `today`.  Invoices without
a due date are thus bucketed as if due at the epoch instead of being
excluded. -/
theorem c8_aging_buckets (customers : List Customer) (today : Int)
    (invs : List Invoice) :
    (getAgingReport customers today invs).1
      = (invs.filter (inBucket10to20 today)).map (mkAgingEntry customers today)
    ∧ (getAgingReport customers today invs).2
      = (invs.filter (inBucket20plus today)).map (mkAgingEntry customers today) := by
  induction invs with
  | nil => exact ⟨rfl, rfl⟩
  | cons inv invs ih =>
    obtain ⟨ih1, ih2⟩ := ih
    simp only [getAgingReport]
    rw [List.filter_cons, List.filter_cons]
    by_cases hpaid : (inv.status == Status.paid) = true
    · have hps : inv.status = .paid := by simpa using hpaid
      have h1 : inBucket10to20 today inv = false := by
        unfold inBucket10to20
        rw [decide_eq_false_iff_not]
        rintro ⟨hc, _, _, _⟩
        exact hc hps
      have h2 : inBucket20plus today inv = false := by
        unfold inBucket20plus
        rw [decide_eq_false_iff_not]
        rintro ⟨hc, _, _⟩
        exact hc hps
      rw [if_pos hpaid, if_neg (by simp [h1]), if_neg (by simp [h2])]
      exact ⟨ih1, ih2⟩
    · have hps : ¬ inv.status = .paid := by simpa using hpaid
      rw [if_neg hpaid]
      by_cases hd0 : daysPastDue today inv ≤ 0
      · have h1 : inBucket10to20 today inv = false := by
          unfold inBucket10to20
          rw [decide_eq_false_iff_not]
          rintro ⟨_, _, h10, _⟩
          omega
        have h2 : inBucket20plus today inv = false := by
          unfold inBucket20plus
          rw [decide_eq_false_iff_not]
          rintro ⟨_, _, h20⟩
          omega
        rw [if_pos hd0, if_neg (by simp [h1]), if_neg (by simp [h2])]
        exact ⟨ih1, ih2⟩
      · rw [if_neg hd0]
        by_cases hrem : inv.amount - inv.paidAmount ≤ 0
        · have h1 : inBucket10to20 today inv = false := by
            unfold inBucket10to20
            rw [decide_eq_false_iff_not]
            rintro ⟨_, hr, _, _⟩
            linarith
          have h2 : inBucket20plus today inv = false := by
            unfold inBucket20plus
            rw [decide_eq_false_iff_not]
            rintro ⟨_, hr, _⟩
            linarith
          rw [if_pos hrem, if_neg (by simp [h1]), if_neg (by simp [h2])]
          exact ⟨ih1, ih2⟩
        · rw [if_neg hrem]
          push_neg at hrem
          by_cases h1020 : 10 ≤ daysPastDue today inv ∧ daysPastDue today inv ≤ 20
          · have h1 : inBucket10to20 today inv = true := by
              unfold inBucket10to20
              rw [decide_eq_true_eq]
              exact ⟨hps, hrem, h1020.1, h1020.2⟩
            have h2 : inBucket20plus today inv = false := by
              unfold inBucket20plus
              rw [decide_eq_false_iff_not]
              rintro ⟨_, _, h20⟩
              have := h1020.2
              omega
            rw [if_pos h1020, if_pos h1, if_neg (by simp [h2])]
            exact ⟨by rw [List.map_cons, ih1], ih2⟩
          · rw [if_neg h1020]
            by_cases h20 : 20 < daysPastDue today inv
            · have h1 : inBucket10to20 today inv = false := by
                unfold inBucket10to20
                rw [decide_eq_false_iff_not]
                rintro ⟨_, _, _, h120⟩
                omega
              have h2 : inBucket20plus today inv = true := by
                unfold inBucket20plus
                rw [decide_eq_true_eq]
                exact ⟨hps, hrem, h20⟩
              rw [if_pos h20, if_neg (by simp [h1]), if_pos h2]
              exact ⟨ih1, by rw [List.map_cons, ih2]⟩
            · have h1 : inBucket10to20 today inv = false := by
                unfold inBucket10to20
                rw [decide_eq_false_iff_not]
                rintro ⟨_, _, h10, h120⟩
                exact h1020 ⟨h10, h120⟩
              have h2 : inBucket20plus today inv = false := by
                unfold inBucket20plus
                rw [decide_eq_false_iff_not]
                rintro ⟨_, _, hgt⟩
                exact h20 hgt
              rw [if_neg h20, if_neg (by simp [h1]), if_neg (by simp [h2])]
              exact ⟨ih1, ih2⟩

/-- C8 counterexample: an unpaid invoice with **no due date at all**
appears in the 20-plus bucket (30 days after the epoch), although the
claim admits only invoices whose due date is in the past — on the client
`new Date(null)` is the epoch, so a missing due date counts as maximally
overdue. -/
theorem c8_counterexample :
    ((getAgingReport [] 2592000000 [noDueDateInvoice]).2).map
        (fun e => e.inv.dueDate) = [none] ∧
    noDueDateInvoice.dueDate = none := by
  constructor
  · have hd : daysPastDue 2592000000 noDueDateInvoice = 30 := by decide
    simp only [getAgingReport, hd]
    norm_num [noDueDateInvoice, mkAgingEntry]
    simp
  · rfl

end Fatura
